import Mathlib

/-!
Verification of the Resume-Matcher core against its specification.

This file shallowly embeds the two core source modules:

* `src/scripts/ReadPdf.py` — `EnhancedPDFProcessor`: discovery
  (`get_pdf_files`), single-document ingestion (`read_pdf`), parallel page
  extraction (`_extract_pages_parallel`), text cleaning (`_clean_text`),
  page joining (`_combine_page_contents`), batch ingestion
  (`read_multiple_pdfs`).
* `src/scripts/KeytermsExtraction.py` — `EnhancedKeytermExtractor`:
  domain relevance (`_calculate_domain_relevance`), score fusion
  (`_calculate_combined_score`), ranked extraction (`extract_all_keyterms`).

External collaborators (the `pypdf` parser, `hashlib.md5`, Python's
Unicode predicates `str.isprintable`/whitespace classes, and the
textacy/sklearn scoring algorithms) are modelled as explicit parameters:
the Python code delegates to them wholesale, so every theorem quantifies
over their behaviour or instantiates them per documented behaviour where
a concrete outcome is needed.

Concurrency model: `_extract_pages_parallel` submits one task per page
index and collects results in `as_completed` order; that completion order
is modelled as an explicit list `comp` which theorems quantify over
(typically as an arbitrary permutation of `range n`).
-/

namespace ResumeMatcher

open scoped List

/-! ## Data model (`ReadPdf.py` dataclasses) -/

/-- The `PDFPage` dataclass: one extracted page (tables/images fields are never
populated by the code and are omitted). -/
structure PDFPage where
  page_number : Nat
  content : String
  file_name : String
  deriving Repr, DecidableEq

/-- The `PDFMetadata` dataclass. -/
structure PDFMetadata where
  filename : String
  num_pages : Nat
  file_size : Nat
  author : Option String := none
  title : Option String := none
  subject : Option String := none
  creator : Option String := none
  creation_date : Option String := none
  checksum : Option String := none
  deriving Repr, DecidableEq

/-- Container-level metadata as exposed by `pypdf`'s `reader.metadata`
(`info.get("/Author")` etc.). -/
structure ContainerInfo where
  author : Option String := none
  title : Option String := none
  subject : Option String := none
  creator : Option String := none
  creation_date : Option String := none
  deriving Repr, DecidableEq

/-- Model of an opened `pypdf.PdfReader`: number of logical pages, a raw
text-extraction outcome per 0-based page index (`reader.pages[i].extract_text()`
may raise, hence `Except`), and the metadata dictionary. -/
structure PdfContainer where
  numPages : Nat
  pageExtract : Nat → Except String String
  info : ContainerInfo

/-- The dictionary returned by `read_pdf`:
`{"metadata": ..., "pages": ..., "full_text": ...}`. -/
structure PdfResult where
  metadata : PDFMetadata
  pages : List PDFPage
  full_text : String
  deriving Repr, DecidableEq

/-! ## `_clean_text` -/

/-- Model of `re.sub(r"\s+", " ", text)`: each maximal run of whitespace characters
(per the predicate `isSp`, Python's Unicode `\s` class) becomes a single
space. -/
def collapseWsAux (isSp : Char → Bool) (inRun : Bool) : List Char → List Char
  | [] => []
  | c :: rest =>
    if isSp c then
      if inRun then collapseWsAux isSp true rest
      else ' ' :: collapseWsAux isSp true rest
    else c :: collapseWsAux isSp false rest

/-- The full `collapseWs`: no run is open at the start of the text. -/
def collapseWs (isSp : Char → Bool) (l : List Char) : List Char :=
  collapseWsAux isSp false l

/-- Python `str.strip()`: drop leading and trailing whitespace characters. -/
def stripEnds (isSp : Char → Bool) (l : List Char) : List Char :=
  ((l.dropWhile isSp).reverse.dropWhile isSp).reverse

/-- Model of `EnhancedPDFProcessor._clean_text`: collapse whitespace, replace the
OCR confusables `'|' ↦ 'I'` and `'0' ↦ 'O'`, keep only printable
characters (`str.isprintable`, modelled by the predicate `isPrint`), and
strip.  The Unicode character-class predicates are parameters. -/
def clean_text (isSp isPrint : Char → Bool) (text : String) : String :=
  let t1 := collapseWs isSp text.data
  let t2 := t1.map (fun c => if c = '|' then 'I' else c)
  let t3 := t2.map (fun c => if c = '0' then 'O' else c)
  let t4 := t3.filter isPrint
  String.mk (stripEnds isSp t4)

/-! ## Page extraction and reassembly -/

/-- Model of `EnhancedPDFProcessor._extract_single_page`: extract raw text of page
`page_num` (0-based), clean it, and build a `PDFPage` numbered
`page_num + 1`.  An exception inside `extract_text` propagates (`Except`). -/
def extract_single_page (isSp isPrint : Char → Bool) (container : PdfContainer)
    (page_num : Nat) (file_name : String) : Except String PDFPage :=
  (container.pageExtract page_num).map fun raw =>
    { page_number := page_num + 1
      content := clean_text isSp isPrint raw
      file_name := file_name }

/-- The sort key order of `sorted(pages, key=lambda x: x.page_number)`. -/
def pageLE (a b : PDFPage) : Prop := a.page_number ≤ b.page_number

instance : DecidableRel pageLE := fun a b => Nat.decLe a.page_number b.page_number

instance : IsTotal PDFPage pageLE := ⟨fun a b => Nat.le_total a.page_number b.page_number⟩

instance : IsTrans PDFPage pageLE := ⟨fun _ _ _ h h' => Nat.le_trans h h'⟩

/-- Strict page-number order, used to identify sorted lists with distinct
page numbers. -/
def pageLT (a b : PDFPage) : Prop := a.page_number < b.page_number

instance : IsAntisymm PDFPage pageLT := ⟨fun _ _ h h' => absurd h' (Nat.lt_asymm h)⟩

/-- Model of `sorted(pages, key=lambda x: x.page_number)` — Python's `sorted` is a
stable sort on the (non-strict) key order. -/
def sortPages (ps : List PDFPage) : List PDFPage :=
  List.insertionSort pageLE ps

/-- Model of `EnhancedPDFProcessor._extract_pages_parallel`: one task per page index
`0 .. numPages-1`; results are collected in task-completion order `comp`
(a permutation of `range numPages`); a task that raised is logged and
skipped; finally the collected pages are sorted by `page_number`. -/
def extract_pages_parallel (isSp isPrint : Char → Bool) (container : PdfContainer)
    (file_name : String) (comp : List Nat) : List PDFPage :=
  sortPages <| comp.filterMap fun i =>
    (extract_single_page isSp isPrint container i file_name).toOption

/-- Model of `EnhancedPDFProcessor._combine_page_contents`: join page contents with
the `"\n\n"` page separator. -/
def combine_page_contents (pages : List PDFPage) : String :=
  String.intercalate "\n\n" (pages.map PDFPage.content)

/-- Model of `EnhancedPDFProcessor._extract_metadata`: `num_pages` is
`len(reader.pages)`; optional fields come from the container info; the
checksum computed by `read_pdf` is attached.  (The `except` fallback branch
sets the same `filename`/`num_pages`/`file_size`/`checksum` fields, so both
branches agree on everything the theorems below touch.) -/
def extract_metadata (container : PdfContainer) (filename : String)
    (file_size : Nat) (checksum : String) : PDFMetadata :=
  { filename := filename
    num_pages := container.numPages
    file_size := file_size
    author := container.info.author
    title := container.info.title
    subject := container.info.subject
    creator := container.info.creator
    creation_date := container.info.creation_date
    checksum := some checksum }

/-! ## `read_pdf` and discovery -/

/-- The five magic bytes `b"%PDF-"`. -/
def pdfMagic : List Nat := [0x25, 0x50, 0x44, 0x46, 0x2d]

/-- The header test in `get_pdf_files`: `f.read(5)` then
`header.startswith(b"%PDF-")` — equivalently, `b"%PDF-"` is a prefix of
the file's bytes. -/
def hasPdfHeader (bs : List Nat) : Bool := pdfMagic.isPrefixOf bs

/-- Model of `EnhancedPDFProcessor.get_pdf_files`: filter the globbed `*.pdf`
files (given as `(path, bytes)` pairs in enumeration order), keeping those
within the size limit whose first bytes are `%PDF-`; order is preserved. -/
def get_pdf_files (max_file_size : Nat) (files : List (String × List Nat)) :
    List (String × List Nat) :=
  files.filter fun f => f.2.length ≤ max_file_size && hasPdfHeader f.2

/-- Model of `EnhancedPDFProcessor.read_pdf`.  Parameters model the environment:
`fs` maps a path to its bytes when the file exists, `parse` models
`pypdf.PdfReader` (which may raise), `md5` models the streaming checksum,
`isSp`/`isPrint` the Unicode predicates, and `comp` the completion order
of the page tasks.  Any exception is wrapped in a
`PDFProcessingError("Error reading PDF ...")`; note that `read_pdf`
performs no `%PDF-` header check of its own. -/
def read_pdf (isSp isPrint : Char → Bool)
    (parse : List Nat → Except String PdfContainer)
    (md5 : List Nat → String) (fs : String → Option (List Nat))
    (path : String) (comp : List Nat) : Except String PdfResult :=
  match fs path with
  | none => .error ("Error reading PDF " ++ path ++ ": File does not exist: " ++ path)
  | some bytes =>
    match parse bytes with
    | .error e => .error ("Error reading PDF " ++ path ++ ": " ++ e)
    | .ok container =>
      let metadata := extract_metadata container path bytes.length (md5 bytes)
      let pages := extract_pages_parallel isSp isPrint container path comp
      .ok { metadata := metadata
            pages := pages
            full_text := combine_page_contents pages }

/-- Model of `EnhancedPDFProcessor.read_multiple_pdfs` (sequential branch, taken
when `parallel=False` or at most one file was discovered): iterate the
discovered files in order; a file whose `read_pdf` raises is logged and
yields nothing; successful results are yielded in discovery order. -/
def read_multiple_pdfs_seq (isSp isPrint : Char → Bool)
    (parse : List Nat → Except String PdfContainer)
    (md5 : List Nat → String) (fs : String → Option (List Nat))
    (compFor : String → List Nat) (max_file_size : Nat)
    (files : List (String × List Nat)) : List PdfResult :=
  (get_pdf_files max_file_size files).filterMap fun f =>
    (read_pdf isSp isPrint parse md5 fs f.1 (compFor f.1)).toOption

/-! ## `KeytermsExtraction.py` -/

/-- The `KeytermScore` dataclass: a term with its per-algorithm scores
(floats modelled as exact rationals). -/
structure KeytermScore where
  term : String
  textrank_score : ℚ := 0
  sgrank_score : ℚ := 0
  scake_score : ℚ := 0
  yake_score : ℚ := 0
  tfidf_score : ℚ := 0
  domain_relevance : ℚ := 0
  combined_score : ℚ := 0
  deriving Repr, DecidableEq

/-- Model of `EnhancedKeytermExtractor.TECH_SKILLS`. -/
def TECH_SKILLS : List String :=
  ["python", "java", "javascript", "react", "node.js", "sql", "aws",
   "docker", "kubernetes", "machine learning", "deep learning", "ai",
   "data science", "backend", "frontend", "full stack", "devops",
   "cloud computing", "microservices", "rest api", "graphql",
   "continuous integration", "continuous deployment", "agile"]

/-- Model of `EnhancedKeytermExtractor.JOB_TITLES`. -/
def JOB_TITLES : List String :=
  ["software engineer", "developer", "architect", "data scientist",
   "product manager", "project manager", "team lead", "director", "vp",
   "chief", "specialist", "analyst", "consultant", "administrator"]

/-- Model of `self.domain_terms = TECH_SKILLS.union(JOB_TITLES)` (no extra
domain-specific terms supplied).  Membership below is what matters, so the
union is modelled as list concatenation. -/
def domain_terms : List String := TECH_SKILLS ++ JOB_TITLES

/-- The fixed `technical_words` set inside `_calculate_domain_relevance`. -/
def technical_words : List String :=
  ["data", "software", "system", "api", "web", "cloud", "app"]

/-- Python's substring test `needle in hay` on strings. -/
def strIn (needle hay : String) : Bool := decide (needle.data <:+: hay.data)

/-- Model of `EnhancedKeytermExtractor._calculate_domain_relevance`: 1.0 on exact
membership in `domain_terms` (a case-sensitive comparison — the vocabulary
is all lowercase); else 0.75 when some vocabulary entry is a substring of
the term or vice versa; else 0.5 when the term contains one of the
`technical_words`; else 0.0. -/
def calculate_domain_relevance (term : String) : ℚ :=
  if domain_terms.contains term then 1
  else if domain_terms.any (fun dt => strIn dt term || strIn term dt) then 0.75
  else if technical_words.any (fun w => strIn w term) then 0.5
  else 0

/-- The fixed `weights` dictionary inside `_calculate_combined_score`. -/
def weights : List (String × ℚ) :=
  [("textrank", 0.2), ("sgrank", 0.2), ("scake", 0.15), ("yake", 0.15),
   ("tfidf", 0.15), ("domain", 0.15)]

/-- The `weights[k]` lookup. -/
def weightOf (k : String) : ℚ := (weights.lookup k).getD 0

/-- Model of `EnhancedKeytermExtractor._calculate_combined_score`: the weighted sum
of the six signals. -/
def calculate_combined_score (s : KeytermScore) : ℚ :=
  weightOf "textrank" * s.textrank_score
    + weightOf "sgrank" * s.sgrank_score
    + weightOf "scake" * s.scake_score
    + weightOf "yake" * s.yake_score
    + weightOf "tfidf" * s.tfidf_score
    + weightOf "domain" * s.domain_relevance

/-- The per-term construction inside `extract_all_keyterms`: each
algorithm's score defaults to 0.0 when the algorithm did not emit the term
(`dict.get(term, 0.0)`, modelled by association-list lookup), domain
relevance is computed, and the combined score is filled in. -/
def buildKeytermScore (textrank sgrank scake yake tfidf : List (String × ℚ))
    (term : String) : KeytermScore :=
  let s : KeytermScore :=
    { term := term
      textrank_score := ((textrank.lookup term).getD 0)
      sgrank_score := ((sgrank.lookup term).getD 0)
      scake_score := ((scake.lookup term).getD 0)
      yake_score := ((yake.lookup term).getD 0)
      tfidf_score := ((tfidf.lookup term).getD 0)
      domain_relevance := calculate_domain_relevance term }
  { s with combined_score := calculate_combined_score s }

/-- The comparison used by
`sorted(keyterm_scores, key=lambda x: x.combined_score, reverse=True)`:
descending by combined score; Python's `sorted` is stable, so ties keep
the order in which `all_terms` was iterated. -/
def scoreDesc (a b : KeytermScore) : Prop := b.combined_score ≤ a.combined_score

instance : DecidableRel scoreDesc :=
  fun a b => inferInstanceAs (Decidable (b.combined_score ≤ a.combined_score))

instance : IsTotal KeytermScore scoreDesc := ⟨fun a b => le_total b.combined_score a.combined_score⟩

instance : IsTrans KeytermScore scoreDesc := ⟨fun _ _ _ h h' => le_trans h' h⟩

/-- Validity of an iteration order: `all_terms` in `extract_all_keyterms` is a Python `set` union of the
five algorithms' term sets; its iteration order is arbitrary.  `order` is
a valid iteration order when it enumerates exactly the union, each term
once. -/
def IsUnionOrder (order : List String)
    (textrank sgrank scake yake tfidf : List (String × ℚ)) : Prop :=
  order.Nodup ∧ ∀ t : String,
    t ∈ order ↔ (t ∈ textrank.map Prod.fst ∨ t ∈ sgrank.map Prod.fst
      ∨ t ∈ scake.map Prod.fst ∨ t ∈ yake.map Prod.fst ∨ t ∈ tfidf.map Prod.fst)

/-- Model of `EnhancedKeytermExtractor.extract_all_keyterms`, given the five
algorithm outputs and the set-iteration order `order` of `all_terms`:
build a `KeytermScore` per term, stable-sort descending by
`combined_score`, truncate to `top_n`. -/
def extract_all_keyterms (top_n : Nat) (order : List String)
    (textrank sgrank scake yake tfidf : List (String × ℚ)) : List KeytermScore :=
  (List.insertionSort scoreDesc
      (order.map (buildKeytermScore textrank sgrank scake yake tfidf))).take top_n

/-- Driver of `extract_all_keyterms`, as called at the top of the method: the five
extraction calls (`get_keyterms_based_on_textrank`, ..., `_get_tfidf_scores`)
run first, in source order, with **no** exception handling around them, so
the first one that raises propagates out of `extract_all_keyterms`.
`orderOf` picks the set-iteration order from the five (successful)
outputs. -/
def extract_all_keyterms_run (top_n : Nat)
    (orderOf : List (String × ℚ) → List (String × ℚ) → List (String × ℚ) →
      List (String × ℚ) → List (String × ℚ) → List String)
    (textrankE sgrankE scakeE yakeE tfidfE : Except String (List (String × ℚ))) :
    Except String (List KeytermScore) :=
  match textrankE with
  | .error e => .error e
  | .ok tr =>
    match sgrankE with
    | .error e => .error e
    | .ok sg =>
      match scakeE with
      | .error e => .error e
      | .ok sc =>
        match yakeE with
        | .error e => .error e
        | .ok ya =>
          match tfidfE with
          | .error e => .error e
          | .ok tf =>
            .ok (extract_all_keyterms top_n (orderOf tr sg sc ya tf) tr sg sc ya tf)

/-- The `score(text)` entry point of the spec, i.e. constructing an
`EnhancedKeytermExtractor` on `text` and calling `extract_all_keyterms`:
each scoring algorithm is a function of the (preprocessed) text that may
raise.  Preprocessing of the empty string yields the empty string, so the
algorithm functions are simply applied to the preprocessed text. -/
def scoreText (top_n : Nat)
    (orderOf : List (String × ℚ) → List (String × ℚ) → List (String × ℚ) →
      List (String × ℚ) → List (String × ℚ) → List String)
    (preprocess : String → String)
    (trF sgF scF yaF tfF : String → Except String (List (String × ℚ)))
    (text : String) : Except String (List KeytermScore) :=
  extract_all_keyterms_run top_n orderOf
    (trF (preprocess text)) (sgF (preprocess text)) (scF (preprocess text))
    (yaF (preprocess text)) (tfF (preprocess text))

/-- Model of `EnhancedKeytermExtractor._preprocess_text`: collapse whitespace,
replace every character that is neither a word character (`\w`), nor
whitespace, nor `'-'` by a space, lowercase, strip.  The Unicode classes
`\w`/`\s` and `str.lower` are parameters. -/
def preprocess_text (isSp isWord : Char → Bool) (lower : Char → Char)
    (text : String) : String :=
  let t1 := collapseWs isSp text.data
  let t2 := t1.map (fun c => if isWord c || isSp c || c = '-' then c else ' ')
  let t3 := t2.map lower
  String.mk (stripEnds isSp t3)

/-! ## Helper lemmas about page reassembly -/

/-- Lemma: `sortPages` produces a `page_number`-sorted list. -/
lemma sortPages_sorted (ps : List PDFPage) : List.Sorted pageLE (sortPages ps) :=
  List.sorted_insertionSort pageLE ps

/-- Lemma: `sortPages` permutes its input. -/
lemma sortPages_perm (ps : List PDFPage) : sortPages ps ~ ps :=
  List.perm_insertionSort pageLE ps

/-- A `pageLE`-sorted list with pairwise-distinct page numbers is sorted
for the strict order. -/
lemma sorted_pageLT_of_sorted_nodup {l : List PDFPage}
    (hs : List.Sorted pageLE l) (hn : (l.map PDFPage.page_number).Nodup) :
    List.Sorted pageLT l := by
  have hne : l.Pairwise (fun a b => a.page_number ≠ b.page_number) :=
    List.pairwise_map.mp hn
  exact (hs.and hne).imp fun h => Nat.lt_of_le_of_ne h.1 h.2

/-- Sorting is completion-order independent once page numbers are
distinct: any two permuted inputs sort to the same list. -/
lemma sortPages_eq_of_perm {l₁ l₂ : List PDFPage} (hp : l₁ ~ l₂)
    (hn : (l₁.map PDFPage.page_number).Nodup) : sortPages l₁ = sortPages l₂ := by
  have hperm : sortPages l₁ ~ sortPages l₂ :=
    (sortPages_perm l₁).trans (hp.trans (sortPages_perm l₂).symm)
  have hn₁ : ((sortPages l₁).map PDFPage.page_number).Nodup :=
    (((sortPages_perm l₁).map PDFPage.page_number).nodup_iff).mpr hn
  have hn₂ : ((sortPages l₂).map PDFPage.page_number).Nodup :=
    ((hperm.map PDFPage.page_number).nodup_iff).mp hn₁
  exact List.eq_of_perm_of_sorted hperm
    (sorted_pageLT_of_sorted_nodup (sortPages_sorted l₁) hn₁)
    (sorted_pageLT_of_sorted_nodup (sortPages_sorted l₂) hn₂)

/-- A successfully extracted page for task index `i` carries page number
`i + 1`. -/
lemma extract_single_page_number {isSp isPrint : Char → Bool}
    {container : PdfContainer} {i : Nat} {fn : String} {p : PDFPage}
    (h : (extract_single_page isSp isPrint container i fn).toOption = some p) :
    p.page_number = i + 1 := by
  unfold extract_single_page at h
  cases hext : container.pageExtract i with
  | error e => rw [hext] at h; simp [Except.map, Except.toOption] at h
  | ok raw =>
    rw [hext] at h
    simp only [Except.map, Except.toOption, Option.some.injEq] at h
    rw [← h]

/-- The pages collected from a duplicate-free completion order have
pairwise-distinct page numbers. -/
lemma collected_keys_nodup (isSp isPrint : Char → Bool) (container : PdfContainer)
    (fn : String) {comp : List Nat} (hcomp : comp.Nodup) :
    ((comp.filterMap fun i =>
        (extract_single_page isSp isPrint container i fn).toOption).map
      PDFPage.page_number).Nodup := by
  rw [List.map_filterMap]
  refine List.Nodup.filterMap ?_ hcomp
  intro a a' b hb hb'
  simp only [Option.mem_def, Option.map_eq_some'] at hb hb'
  obtain ⟨p, hp, hpb⟩ := hb
  obtain ⟨p', hp', hpb'⟩ := hb'
  have h1 := extract_single_page_number hp
  have h2 := extract_single_page_number hp'
  omega

/-- Parallel page extraction is independent of the completion order:
any two permutations of the task indices give the same page list. -/
lemma extract_pages_parallel_eq_of_perm (isSp isPrint : Char → Bool)
    (container : PdfContainer) (fn : String) {comp₁ comp₂ : List Nat}
    (hp : comp₁ ~ comp₂) (hnd : comp₁.Nodup) :
    extract_pages_parallel isSp isPrint container fn comp₁ =
      extract_pages_parallel isSp isPrint container fn comp₂ := by
  unfold extract_pages_parallel
  exact sortPages_eq_of_perm
    (hp.filterMap fun i => (extract_single_page isSp isPrint container i fn).toOption)
    (collected_keys_nodup isSp isPrint container fn hnd)

/-- Characterization of `read_pdf` success: it succeeds exactly when the
file exists and the container parser accepts its bytes — in particular
page-extraction failures and header contents play no role. -/
lemma read_pdf_ok_iff (isSp isPrint : Char → Bool)
    (parse : List Nat → Except String PdfContainer) (md5 : List Nat → String)
    (fs : String → Option (List Nat)) (path : String) (comp : List Nat) :
    (∃ r, read_pdf isSp isPrint parse md5 fs path comp = .ok r) ↔
      (∃ bs c, fs path = some bs ∧ parse bs = .ok c) := by
  unfold read_pdf
  cases hfs : fs path with
  | none => simp
  | some bytes =>
    cases hparse : parse bytes with
    | error e => simp [hparse]
    | ok container => simp [hparse]

/-- The result of parallel extraction is sorted by page number. -/
lemma extract_pages_parallel_sorted (isSp isPrint : Char → Bool)
    (container : PdfContainer) (fn : String) (comp : List Nat) :
    List.Sorted pageLE (extract_pages_parallel isSp isPrint container fn comp) :=
  sortPages_sorted _

/-- At most one page per dispatched task survives. -/
lemma extract_pages_parallel_length_le (isSp isPrint : Char → Bool)
    (container : PdfContainer) (fn : String) {comp : List Nat}
    (hcomp : comp ~ List.range container.numPages) :
    (extract_pages_parallel isSp isPrint container fn comp).length ≤
      container.numPages := by
  unfold extract_pages_parallel
  calc (sortPages _).length
      = (comp.filterMap fun i =>
          (extract_single_page isSp isPrint container i fn).toOption).length :=
        (sortPages_perm _).length_eq
    _ ≤ comp.length := List.length_filterMap_le _ _
    _ = container.numPages := by rw [hcomp.length_eq, List.length_range]

/-- Page numbers in the extraction result are pairwise distinct. -/
lemma extract_pages_parallel_nodup (isSp isPrint : Char → Bool)
    (container : PdfContainer) (fn : String) {comp : List Nat}
    (hcomp : comp.Nodup) :
    ((extract_pages_parallel isSp isPrint container fn comp).map
      PDFPage.page_number).Nodup := by
  unfold extract_pages_parallel
  exact (((sortPages_perm _).map PDFPage.page_number).nodup_iff).mpr
    (collected_keys_nodup isSp isPrint container fn hcomp)

/-- Every retained page is numbered between 1 and the page count. -/
lemma extract_pages_parallel_mem_range (isSp isPrint : Char → Bool)
    (container : PdfContainer) (fn : String) {comp : List Nat} {p : PDFPage}
    (hcomp : comp ~ List.range container.numPages)
    (hp : p ∈ extract_pages_parallel isSp isPrint container fn comp) :
    1 ≤ p.page_number ∧ p.page_number ≤ container.numPages := by
  unfold extract_pages_parallel at hp
  have hp' := (sortPages_perm _).subset hp
  obtain ⟨i, hi, hsome⟩ := List.mem_filterMap.mp hp'
  have hnum := extract_single_page_number hsome
  have hlt : i < container.numPages := List.mem_range.mp (hcomp.subset hi)
  omega

/-- Membership survives `stripEnds`. -/
lemma mem_of_mem_stripEnds {isSp : Char → Bool} {l : List Char} {c : Char}
    (h : c ∈ stripEnds isSp l) : c ∈ l := by
  unfold stripEnds at h
  rw [List.mem_reverse] at h
  have h2 := (List.dropWhile_sublist isSp).subset h
  rw [List.mem_reverse] at h2
  exact (List.dropWhile_sublist isSp).subset h2

/-! ## Claim theorems -/

/-- Claim C1 — For every ingested document, the pages sequence is sorted
ascending by `page_number` and `full_text` is the sorted page contents
joined with the page separator, for every order in which the parallel
page-extraction tasks complete: permuting the task-completion order never
changes the pages sequence or `full_text`. -/
theorem page_reassembly_order_stable (isSp isPrint : Char → Bool)
    (parse : List Nat → Except String PdfContainer) (md5 : List Nat → String)
    (fs : String → Option (List Nat)) (path : String)
    (bytes : List Nat) (container : PdfContainer) (comp₁ comp₂ : List Nat)
    (hfs : fs path = some bytes) (hparse : parse bytes = .ok container)
    (h₁ : comp₁ ~ List.range container.numPages)
    (h₂ : comp₂ ~ List.range container.numPages) :
    read_pdf isSp isPrint parse md5 fs path comp₁ =
      read_pdf isSp isPrint parse md5 fs path comp₂ ∧
    ∀ r, read_pdf isSp isPrint parse md5 fs path comp₁ = .ok r →
      List.Sorted pageLE r.pages ∧
      r.full_text = combine_page_contents r.pages := by
  have hpages : extract_pages_parallel isSp isPrint container path comp₁ =
      extract_pages_parallel isSp isPrint container path comp₂ :=
    extract_pages_parallel_eq_of_perm isSp isPrint container path
      (h₁.trans h₂.symm) (h₁.nodup_iff.mpr (List.nodup_range _))
  constructor
  · simp only [read_pdf, hfs, hparse, hpages]
  · intro r hr
    simp only [read_pdf, hfs, hparse, Except.ok.injEq] at hr
    subst hr
    exact ⟨extract_pages_parallel_sorted isSp isPrint container path comp₁, rfl⟩

/-- Witness for C1: a concrete 2-page document processed under two
different task-completion orders. -/
theorem page_reassembly_order_stable_witness :
    (([1, 0] : List Nat) ~ List.range 2) ∧
    read_pdf (fun _ => false) (fun _ => true)
        (fun _ => .ok ⟨2, fun _ => .ok "x", {}⟩) (fun _ => "c")
        (fun _ => some pdfMagic) "doc.pdf" [1, 0] =
      read_pdf (fun _ => false) (fun _ => true)
        (fun _ => .ok ⟨2, fun _ => .ok "x", {}⟩) (fun _ => "c")
        (fun _ => some pdfMagic) "doc.pdf" [0, 1] :=
  ⟨by decide,
    (page_reassembly_order_stable (fun _ => false) (fun _ => true)
      (fun _ => .ok ⟨2, fun _ => .ok "x", {}⟩) (fun _ => "c")
      (fun _ => some pdfMagic) "doc.pdf" pdfMagic ⟨2, fun _ => .ok "x", {}⟩
      [1, 0] [0, 1] rfl rfl (by decide) (by decide)).1⟩

/-- Claim C9 — For every `DocumentBundle` produced by a successful ingest,
`len(pages) ≤ metadata.page_count`, and each retained page has a unique
1-based `page_number` (which moreover lies in `[1, page_count]`). -/
theorem bundle_page_invariants (isSp isPrint : Char → Bool)
    (parse : List Nat → Except String PdfContainer) (md5 : List Nat → String)
    (fs : String → Option (List Nat)) (path : String)
    (bytes : List Nat) (container : PdfContainer) (comp : List Nat)
    (r : PdfResult)
    (hfs : fs path = some bytes) (hparse : parse bytes = .ok container)
    (hcomp : comp ~ List.range container.numPages)
    (hr : read_pdf isSp isPrint parse md5 fs path comp = .ok r) :
    r.pages.length ≤ r.metadata.num_pages ∧
    (r.pages.map PDFPage.page_number).Nodup ∧
    ∀ p ∈ r.pages, 1 ≤ p.page_number ∧ p.page_number ≤ r.metadata.num_pages := by
  simp only [read_pdf, hfs, hparse, Except.ok.injEq] at hr
  subst hr
  refine ⟨extract_pages_parallel_length_le isSp isPrint container path hcomp,
    extract_pages_parallel_nodup isSp isPrint container path
      (hcomp.nodup_iff.mpr (List.nodup_range _)), ?_⟩
  intro p hp
  exact extract_pages_parallel_mem_range isSp isPrint container path hcomp hp

/-- Witness for C9: a concrete 3-page document whose middle page fails. -/
theorem bundle_page_invariants_witness :
    (([2, 0, 1] : List Nat) ~ List.range 3) ∧
    ∀ p ∈ (⟨⟨"d.pdf", 3, 5, none, none, none, none, none, some "c"⟩,
        extract_pages_parallel (fun _ => false) (fun _ => true)
          ⟨3, fun i => if i = 1 then .error "boom" else .ok "x", {}⟩ "d.pdf" [2, 0, 1],
        combine_page_contents (extract_pages_parallel (fun _ => false) (fun _ => true)
          ⟨3, fun i => if i = 1 then .error "boom" else .ok "x", {}⟩ "d.pdf" [2, 0, 1])⟩ :
          PdfResult).pages,
      1 ≤ p.page_number ∧ p.page_number ≤ 3 :=
  ⟨by decide,
    (bundle_page_invariants (fun _ => false) (fun _ => true)
      (fun _ => .ok ⟨3, fun i => if i = 1 then .error "boom" else .ok "x", {}⟩)
      (fun _ => "c") (fun _ => some pdfMagic) "d.pdf" pdfMagic
      ⟨3, fun i => if i = 1 then .error "boom" else .ok "x", {}⟩ [2, 0, 1] _
      rfl rfl (by decide) rfl).2.2⟩

/-- Claim C10 — `_clean_text` replaces every `'|'` with `'I'` and every
`'0'` with `'O'`, so the cleaned content (and hence every page content and
`full_text`) never contains the characters `'0'` or `'|'`, whatever the
raw page text was and whatever the Unicode whitespace/printability
predicates decide. -/
theorem clean_text_no_ocr_confusables (isSp isPrint : Char → Bool) (text : String) :
    '0' ∉ (clean_text isSp isPrint text).data ∧
    '|' ∉ (clean_text isSp isPrint text).data := by
  constructor
  · intro hmem
    have h1 : '0' ∈ stripEnds isSp
        ((((collapseWs isSp text.data).map (fun c => if c = '|' then 'I' else c)).map
          (fun c => if c = '0' then 'O' else c)).filter isPrint) := hmem
    have h2 := List.mem_of_mem_filter (mem_of_mem_stripEnds h1)
    obtain ⟨c, _, hc⟩ := List.mem_map.mp h2
    by_cases h0 : c = '0'
    · rw [h0] at hc; simp at hc
    · rw [if_neg h0] at hc; exact h0 hc
  · intro hmem
    have h1 : '|' ∈ stripEnds isSp
        ((((collapseWs isSp text.data).map (fun c => if c = '|' then 'I' else c)).map
          (fun c => if c = '0' then 'O' else c)).filter isPrint) := hmem
    have h2 := List.mem_of_mem_filter (mem_of_mem_stripEnds h1)
    obtain ⟨c, hcmem, hc⟩ := List.mem_map.mp h2
    obtain ⟨c', _, hc'⟩ := List.mem_map.mp hcmem
    by_cases h0 : c = '0'
    · rw [h0] at hc; simp at hc
    · rw [if_neg h0] at hc
      subst hc
      by_cases h1' : c' = '|'
      · rw [h1'] at hc'; simp at hc'
      · rw [if_neg h1'] at hc'; subst hc'; exact h1' rfl

/-- Witness for C10 at a concrete raw text containing both confusables. -/
theorem clean_text_no_ocr_confusables_witness :
    '0' ∉ (clean_text (fun c => c == ' ') (fun _ => true) "a0|b").data ∧
    '|' ∉ (clean_text (fun c => c == ' ') (fun _ => true) "a0|b").data :=
  clean_text_no_ocr_confusables (fun c => c == ' ') (fun _ => true) "a0|b"

/-- Extraction in range (= ascending) completion order needs no
reordering: the collected pages are already sorted. -/
lemma extract_pages_parallel_range_map (isSp isPrint : Char → Bool)
    (container : PdfContainer) (fn : String) :
    (extract_pages_parallel isSp isPrint container fn
        (List.range container.numPages)).map PDFPage.page_number =
      (List.range container.numPages).filterMap fun j =>
        if (container.pageExtract j).toOption.isSome then some (j + 1) else none := by
  unfold extract_pages_parallel sortPages
  have hsorted : List.Sorted pageLE
      ((List.range container.numPages).filterMap fun i =>
        (extract_single_page isSp isPrint container i fn).toOption) := by
    rw [List.Sorted, List.pairwise_filterMap]
    refine (List.pairwise_lt_range container.numPages).imp ?_
    intro a b hab p hp q hq
    have h1 := extract_single_page_number hp
    have h2 := extract_single_page_number hq
    unfold pageLE
    omega
  rw [hsorted.insertionSort_eq, List.map_filterMap]
  refine List.filterMap_congr ?_
  intro j _
  unfold extract_single_page
  cases container.pageExtract j with
  | error e => rfl
  | ok raw => rfl

/-- Claim C2 (amended) — a file whose first bytes are not `%PDF-` is
excluded by `get_pdf_files`; `read_pdf`, however, performs no header check
of its own: it succeeds exactly when the file exists and the underlying
container parser accepts the bytes, whatever the header was. -/
theorem invalid_header_excluded_from_discovery (max_file_size : Nat)
    (files : List (String × List Nat)) (f : String × List Nat)
    (hbad : hasPdfHeader f.2 = false) :
    f ∉ get_pdf_files max_file_size files ∧
    ∀ (isSp isPrint : Char → Bool)
      (parse : List Nat → Except String PdfContainer)
      (md5 : List Nat → String) (fs : String → Option (List Nat))
      (path : String) (comp : List Nat),
      (∃ r, read_pdf isSp isPrint parse md5 fs path comp = .ok r) ↔
        (∃ bs c, fs path = some bs ∧ parse bs = .ok c) := by
  constructor
  · intro hmem
    have h := (List.mem_filter.mp hmem).2
    rw [hbad, Bool.and_false] at h
    exact Bool.noConfusion h
  · intro isSp isPrint parse md5 fs path comp
    exact read_pdf_ok_iff isSp isPrint parse md5 fs path comp

/-- Witness for C2 at a concrete two-byte non-PDF file. -/
theorem invalid_header_excluded_from_discovery_witness :
    hasPdfHeader [9, 9] = false ∧
    ("bad.pdf", [9, 9]) ∉ get_pdf_files 100 [("bad.pdf", [9, 9])] :=
  ⟨by decide,
    (invalid_header_excluded_from_discovery 100 [("bad.pdf", [9, 9])]
      ("bad.pdf", [9, 9]) (by decide)).1⟩

/-- Counterexample to C2 -- — `read_pdf` does not fail with an
InvalidHeader error on a non-`%PDF-` file: the code never checks the
header, and `pypdf`'s default non-strict `PdfReader` (modelled here by the
`parse` argument) only logs a warning on an invalid header, so `read_pdf`
succeeds on bytes `[1, 2, 3]` that `get_pdf_files` would reject. -/
theorem read_pdf_accepts_invalid_header :
    hasPdfHeader [1, 2, 3] = false ∧
    read_pdf (fun _ => false) (fun _ => true)
        (fun _ => .ok ⟨0, fun _ => .error "", {}⟩)
        (fun _ => "m") (fun _ => some [1, 2, 3]) "junk.pdf" [] =
      .ok ⟨⟨"junk.pdf", 0, 3, none, none, none, none, none, some "m"⟩, [], ""⟩ :=
  ⟨by decide, rfl⟩

/-- Claim C3 (amended) — with the container open, the bundle retains
exactly the pages whose extraction task succeeded (a failing page is
excluded, the others are kept, numbered by task index); `read_pdf` fails
as a whole if and only if the file is missing or the container could not
be opened — even when *all* pages fail it still returns an (empty)
bundle. -/
theorem page_failure_tolerated (isSp isPrint : Char → Bool)
    (parse : List Nat → Except String PdfContainer) (md5 : List Nat → String)
    (fs : String → Option (List Nat)) (path : String)
    (bytes : List Nat) (container : PdfContainer) (comp : List Nat)
    (hfs : fs path = some bytes) (hparse : parse bytes = .ok container)
    (hcomp : comp ~ List.range container.numPages) :
    (∃ r, read_pdf isSp isPrint parse md5 fs path comp = .ok r ∧
      r.pages.map PDFPage.page_number =
        (List.range container.numPages).filterMap fun j =>
          if (container.pageExtract j).toOption.isSome then some (j + 1) else none) ∧
    ∀ (fs' : String → Option (List Nat)) (path' : String) (comp' : List Nat),
      (∃ r, read_pdf isSp isPrint parse md5 fs' path' comp' = .ok r) ↔
        (∃ bs c, fs' path' = some bs ∧ parse bs = .ok c) := by
  constructor
  · refine ⟨⟨extract_metadata container path bytes.length (md5 bytes),
        extract_pages_parallel isSp isPrint container path comp,
        combine_page_contents (extract_pages_parallel isSp isPrint container path comp)⟩,
      by simp only [read_pdf, hfs, hparse], ?_⟩
    have heq : extract_pages_parallel isSp isPrint container path comp =
        extract_pages_parallel isSp isPrint container path
          (List.range container.numPages) :=
      extract_pages_parallel_eq_of_perm isSp isPrint container path hcomp
        (hcomp.nodup_iff.mpr (List.nodup_range _))
    simpa [heq] using extract_pages_parallel_range_map isSp isPrint container path
  · intro fs' path' comp'
    exact read_pdf_ok_iff isSp isPrint parse md5 fs' path' comp'

/-- Witness for C3: the spec's scenario — a 3-page document where the
page-2 task (index 1) raises; the bundle keeps pages 1 and 3 and
`read_pdf` succeeds. -/
theorem page_failure_tolerated_witness :
    (([2, 0, 1] : List Nat) ~ List.range 3) ∧
    (∃ r, read_pdf (fun _ => false) (fun _ => true)
        (fun _ => .ok ⟨3, fun i => if i = 1 then .error "boom" else .ok "x", {}⟩)
        (fun _ => "m") (fun _ => some pdfMagic) "d.pdf" [2, 0, 1] = .ok r ∧
      r.pages.map PDFPage.page_number = [1, 3]) :=
  ⟨by decide,
    (page_failure_tolerated (fun _ => false) (fun _ => true)
      (fun _ => .ok ⟨3, fun i => if i = 1 then .error "boom" else .ok "x", {}⟩)
      (fun _ => "m") (fun _ => some pdfMagic) "d.pdf" pdfMagic
      ⟨3, fun i => if i = 1 then .error "boom" else .ok "x", {}⟩ [2, 0, 1]
      rfl rfl (by decide)).1⟩

/-- Counterexample to C3 -- — a 1-page document whose only page task fails:
*all* pages failed, yet `read_pdf` still succeeds, returning an empty
bundle instead of failing as the claim's "if and only if" requires. -/
theorem read_pdf_succeeds_when_all_pages_fail :
    ((⟨1, fun _ => .error "boom", {}⟩ : PdfContainer).pageExtract 0 =
      .error "boom") ∧
    read_pdf (fun _ => false) (fun _ => true)
        (fun _ => .ok ⟨1, fun _ => .error "boom", {}⟩)
        (fun _ => "m") (fun _ => some pdfMagic) "a.pdf" [0] =
      .ok ⟨⟨"a.pdf", 1, 5, none, none, none, none, none, some "m"⟩, [], ""⟩ :=
  ⟨rfl, rfl⟩

/-- Claim C4 (amended) — batch ingestion never aborts on one file's
failure, but it does **not** return one entry per discovered path:
a discovered file whose `read_pdf` raises is logged and silently dropped,
leaving the other files' results unchanged (shown here for the sequential
branch; the parallel branch additionally yields in completion order). -/
theorem batch_skips_failed_files (isSp isPrint : Char → Bool)
    (parse : List Nat → Except String PdfContainer) (md5 : List Nat → String)
    (fs : String → Option (List Nat)) (compFor : String → List Nat)
    (max_file_size : Nat) (l₁ l₂ : List (String × List Nat))
    (bad : String × List Nat)
    (hsize : bad.2.length ≤ max_file_size) (hhdr : hasPdfHeader bad.2 = true)
    (hfail : ∀ r, read_pdf isSp isPrint parse md5 fs bad.1 (compFor bad.1) ≠ .ok r) :
    read_multiple_pdfs_seq isSp isPrint parse md5 fs compFor max_file_size
        (l₁ ++ bad :: l₂) =
      read_multiple_pdfs_seq isSp isPrint parse md5 fs compFor max_file_size l₁ ++
      read_multiple_pdfs_seq isSp isPrint parse md5 fs compFor max_file_size l₂ ∧
    ∀ files, (read_multiple_pdfs_seq isSp isPrint parse md5 fs compFor
        max_file_size files).length ≤
      (get_pdf_files max_file_size files).length := by
  constructor
  · have hnone : (read_pdf isSp isPrint parse md5 fs bad.1 (compFor bad.1)).toOption
        = none := by
      cases hcase : read_pdf isSp isPrint parse md5 fs bad.1 (compFor bad.1) with
      | error e => rfl
      | ok r => exact absurd hcase (hfail r)
    unfold read_multiple_pdfs_seq get_pdf_files
    rw [List.filter_append, List.filter_cons_of_pos
      (by simp [hhdr, decide_eq_true hsize]), List.filterMap_append]
    simp [hnone]
  · intro files
    exact List.length_filterMap_le _ _

/-- Witness for C4: a single discovered file whose parse fails yields an
empty batch result. -/
theorem batch_skips_failed_files_witness :
    hasPdfHeader pdfMagic = true ∧
    read_multiple_pdfs_seq (fun _ => false) (fun _ => true) (fun _ => .error "x")
        (fun _ => "m") (fun _ => some pdfMagic) (fun _ => []) 100
        [("b.pdf", pdfMagic)] = [] :=
  ⟨by decide,
    (batch_skips_failed_files (fun _ => false) (fun _ => true) (fun _ => .error "x")
      (fun _ => "m") (fun _ => some pdfMagic) (fun _ => []) 100 [] []
      ("b.pdf", pdfMagic) (by decide) (by decide)
      (fun r h => by simp [read_pdf] at h)).1⟩

/-- Counterexample to C4 -- — two files are discovered but the batch result
has a single entry: the second file's container fails to open and its
typed failure never appears in the output, a silent drop. -/
theorem batch_result_drops_failed_file :
    (get_pdf_files 100 [("a.pdf", pdfMagic), ("b.pdf", pdfMagic ++ [0])]).length
      = 2 ∧
    (read_multiple_pdfs_seq (fun _ => false) (fun _ => true)
      (fun bs => if bs = pdfMagic then .ok ⟨0, fun _ => .error "", {}⟩
        else .error "Could not read")
      (fun _ => "m")
      (fun p => if p = "a.pdf" then some pdfMagic
        else if p = "b.pdf" then some (pdfMagic ++ [0]) else none)
      (fun _ => []) 100
      [("a.pdf", pdfMagic), ("b.pdf", pdfMagic ++ [0])]).length = 1 :=
  ⟨rfl, rfl⟩

/-- Claim C5 (amended) — `extract_all_keyterms` returns the candidates
sorted descending by `combined_score` and truncated to at most `top_n`
entries, every candidate coming from the candidate set; ties, however,
are left in the (unspecified) set-iteration order of `all_terms` — the
code applies no tie-break on the term string. -/
theorem extract_all_keyterms_sorted (top_n : Nat) (order : List String)
    (textrank sgrank scake yake tfidf : List (String × ℚ)) :
    (extract_all_keyterms top_n order textrank sgrank scake yake tfidf).Pairwise
      scoreDesc ∧
    (extract_all_keyterms top_n order textrank sgrank scake yake tfidf).length
      ≤ top_n ∧
    ∀ s ∈ extract_all_keyterms top_n order textrank sgrank scake yake tfidf,
      s.term ∈ order := by
  unfold extract_all_keyterms
  refine ⟨?_, ?_, ?_⟩
  · exact List.Pairwise.sublist (List.take_sublist _ _)
      (List.sorted_insertionSort scoreDesc _)
  · exact List.length_take_le _ _
  · intro s hs
    have hs1 := (List.take_sublist _ _).subset hs
    have hs2 := (List.perm_insertionSort scoreDesc _).subset hs1
    obtain ⟨t, ht, rfl⟩ := List.mem_map.mp hs2
    exact ht

/-- Witness for C5 at a concrete input. -/
theorem extract_all_keyterms_sorted_witness :
    (extract_all_keyterms 1 ["a"] [("a", 1)] [] [] [] []).length ≤ 1 :=
  (extract_all_keyterms_sorted 1 ["a"] [("a", 1)] [] [] [] []).2.1

/-- Python's string comparison, used to state the claimed tie-break:
lexicographic `≤` on code points. -/
def lexLeb : List Char → List Char → Bool
  | [], _ => true
  | _ :: _, [] => false
  | a :: as, b :: bs => if a < b then true else if b < a then false else lexLeb as bs

/-- Comparison `a <= b` on Python strings. -/
def strLe (a b : String) : Prop := lexLeb a.data b.data = true

/-- The ordering the claim asserts: descending by composite score with
ties broken ascending by the term string. -/
def claimTieOrdered (l : List KeytermScore) : Prop :=
  l.Pairwise fun a b => b.combined_score < a.combined_score ∨
    (b.combined_score = a.combined_score ∧ strLe a.term b.term)

/-- Counterexample to C5 -- — two candidates with equal composite scores:
with set-iteration order `["zzz", "qqq"]` the stable sort keeps `"zzz"`
first, violating the claimed ascending-term tie-break (`"qqq" < "zzz"`). -/
theorem keyterms_tie_not_broken_by_term :
    IsUnionOrder ["zzz", "qqq"] [("zzz", 1), ("qqq", 1)] [] [] [] [] ∧
    ¬ claimTieOrdered
      (extract_all_keyterms 20 ["zzz", "qqq"] [("zzz", 1), ("qqq", 1)] [] [] [] []) := by
  constructor
  · exact ⟨by decide, fun t => by simp⟩
  · have hAc : (buildKeytermScore [("zzz", (1 : ℚ)), ("qqq", 1)] [] [] [] []
        "zzz").combined_score = 0.2 := by
      have h0 : (buildKeytermScore [("zzz", (1 : ℚ)), ("qqq", 1)] [] [] [] []
          "zzz").combined_score = calculate_combined_score ⟨"zzz", 1, 0, 0, 0, 0, 0, 0⟩ := rfl
      rw [h0]
      simp only [calculate_combined_score,
        show weightOf "textrank" = 0.2 from rfl, show weightOf "sgrank" = 0.2 from rfl,
        show weightOf "scake" = 0.15 from rfl, show weightOf "yake" = 0.15 from rfl,
        show weightOf "tfidf" = 0.15 from rfl, show weightOf "domain" = 0.15 from rfl]
      norm_num
    have hBc : (buildKeytermScore [("zzz", (1 : ℚ)), ("qqq", 1)] [] [] [] []
        "qqq").combined_score = 0.2 := by
      have h0 : (buildKeytermScore [("zzz", (1 : ℚ)), ("qqq", 1)] [] [] [] []
          "qqq").combined_score = calculate_combined_score ⟨"qqq", 1, 0, 0, 0, 0, 0, 0⟩ := rfl
      rw [h0]
      simp only [calculate_combined_score,
        show weightOf "textrank" = 0.2 from rfl, show weightOf "sgrank" = 0.2 from rfl,
        show weightOf "scake" = 0.15 from rfl, show weightOf "yake" = 0.15 from rfl,
        show weightOf "tfidf" = 0.15 from rfl, show weightOf "domain" = 0.15 from rfl]
      norm_num
    have hAB : scoreDesc
        (buildKeytermScore [("zzz", (1 : ℚ)), ("qqq", 1)] [] [] [] [] "zzz")
        (buildKeytermScore [("zzz", (1 : ℚ)), ("qqq", 1)] [] [] [] [] "qqq") := by
      show (buildKeytermScore [("zzz", (1 : ℚ)), ("qqq", 1)] [] [] [] []
          "qqq").combined_score ≤ (buildKeytermScore [("zzz", (1 : ℚ)), ("qqq", 1)]
          [] [] [] [] "zzz").combined_score
      rw [hAc, hBc]
    have hsort : extract_all_keyterms 20 ["zzz", "qqq"] [("zzz", 1), ("qqq", 1)] [] [] [] []
        = [buildKeytermScore [("zzz", (1 : ℚ)), ("qqq", 1)] [] [] [] [] "zzz",
           buildKeytermScore [("zzz", (1 : ℚ)), ("qqq", 1)] [] [] [] [] "qqq"] := by
      have h1 : extract_all_keyterms 20 ["zzz", "qqq"] [("zzz", 1), ("qqq", 1)] [] [] [] []
          = (List.orderedInsert scoreDesc
              (buildKeytermScore [("zzz", (1 : ℚ)), ("qqq", 1)] [] [] [] [] "zzz")
              (List.orderedInsert scoreDesc
                (buildKeytermScore [("zzz", (1 : ℚ)), ("qqq", 1)] [] [] [] [] "qqq")
                [])).take 20 := rfl
      rw [h1, List.orderedInsert_nil, List.orderedInsert_of_le scoreDesc [] hAB]
      rfl
    intro h
    rw [hsort] at h
    have hrel := (List.pairwise_cons.mp h).1 _ (List.mem_cons_self _ _)
    rcases hrel with hlt | ⟨heq, hle⟩
    · rw [hAc, hBc] at hlt
      exact lt_irrefl _ hlt
    · have hzq : strLe "zzz" "qqq" := hle
      have hnot : ¬ strLe "zzz" "qqq" := by
        show ¬ (lexLeb "zzz".data "qqq".data = true)
        decide
      exact hnot hzq

/-- Counterexample to C6 -- helper, giving the spec's "case-insensitive
match" a meaning: ASCII lowercasing. -/
def asciiLower (s : String) : String := String.mk (s.data.map Char.toLower)

/-- Claim C6 (amended) — `_calculate_domain_relevance` returns exactly one
of 1.0 (exact, case-*sensitive*, match with the lowercase vocabulary),
0.75 (substring relation with a vocabulary entry in either direction),
0.5 (contains a generic technical keyword) or 0.0; in particular the
result always lies in `[0, 1]`, and vocabulary members score 1.0. -/
theorem domain_relevance_values (term : String) :
    (calculate_domain_relevance term = 0 ∨ calculate_domain_relevance term = 0.5 ∨
      calculate_domain_relevance term = 0.75 ∨ calculate_domain_relevance term = 1) ∧
    0 ≤ calculate_domain_relevance term ∧ calculate_domain_relevance term ≤ 1 ∧
    (domain_terms.contains term = true → calculate_domain_relevance term = 1) := by
  unfold calculate_domain_relevance
  split_ifs with h1 h2 h3
  · exact ⟨.inr (.inr (.inr rfl)), by norm_num, by norm_num, fun _ => rfl⟩
  · exact ⟨.inr (.inr (.inl rfl)), by norm_num, by norm_num, fun hc => absurd hc h1⟩
  · exact ⟨.inr (.inl rfl), by norm_num, by norm_num, fun hc => absurd hc h1⟩
  · exact ⟨.inl rfl, by norm_num, by norm_num, fun hc => absurd hc h1⟩

/-- Witness for C6: the vocabulary member `"python"` scores 1.0. -/
theorem domain_relevance_values_witness :
    domain_terms.contains "python" = true ∧ calculate_domain_relevance "python" = 1 :=
  ⟨by decide, (domain_relevance_values "python").2.2.2 (by decide)⟩

/-- Counterexample to C6 -- — matching is case-sensitive, not
case-insensitive: `"PYTHON"` lowercases to the vocabulary entry
`"python"` yet scores 0.0 rather than 1.0. -/
theorem domain_relevance_case_sensitive :
    asciiLower "PYTHON" = "python" ∧ domain_terms.contains "python" = true ∧
    calculate_domain_relevance "PYTHON" = 0 :=
  ⟨by decide, by decide, by decide⟩

/-- The six raw signals of a candidate, listed in the order of the
`weights` dictionary. -/
def signalVector (s : KeytermScore) : List ℚ :=
  [s.textrank_score, s.sgrank_score, s.scake_score, s.yake_score,
   s.tfidf_score, s.domain_relevance]

/-- Claim C7 — the composite score is the weighted sum `Σ wᵢ · scoreᵢ`
over all six signals (the five algorithms plus domain relevance) with the
fixed configured weight vector, that weight vector sums to 1.0, and the
composite score is a pure deterministic function of the signal vector. -/
theorem combined_score_is_fixed_weighted_sum :
    ((weights.map Prod.snd).sum = 1) ∧
    (∀ s : KeytermScore, calculate_combined_score s =
      (List.zipWith (fun w x => w * x) (weights.map Prod.snd) (signalVector s)).sum) ∧
    ∀ s₁ s₂ : KeytermScore, signalVector s₁ = signalVector s₂ →
      calculate_combined_score s₁ = calculate_combined_score s₂ := by
  have w1 : weightOf "textrank" = 0.2 := rfl
  have w2 : weightOf "sgrank" = 0.2 := rfl
  have w3 : weightOf "scake" = 0.15 := rfl
  have w4 : weightOf "yake" = 0.15 := rfl
  have w5 : weightOf "tfidf" = 0.15 := rfl
  have w6 : weightOf "domain" = 0.15 := rfl
  refine ⟨by norm_num [weights], ?_, ?_⟩
  · intro s
    simp only [calculate_combined_score, w1, w2, w3, w4, w5, w6, weights,
      signalVector, List.map_cons, List.map_nil, List.zipWith_cons_cons,
      List.zipWith_nil_right, List.sum_cons, List.sum_nil]
    ring
  · intro s₁ s₂ h
    simp only [signalVector, List.cons.injEq, and_true] at h
    obtain ⟨h1, h2, h3, h4, h5, h6⟩ := h
    simp only [calculate_combined_score, h1, h2, h3, h4, h5, h6]

/-- Witness for C7: the weight vector sums to 1.0. -/
theorem combined_score_is_fixed_weighted_sum_witness :
    (weights.map Prod.snd).sum = 1 :=
  combined_score_is_fixed_weighted_sum.1

/-- A canonical valid set-iteration order: first occurrences in the
concatenation of the five term lists. -/
lemma dedup_union_isUnionOrder (a b c d e : List (String × ℚ)) :
    IsUnionOrder (((a ++ b ++ c ++ d ++ e).map Prod.fst).dedup) a b c d e := by
  refine ⟨List.nodup_dedup _, ?_⟩
  intro t
  simp [List.mem_dedup, List.map_append, List.mem_append, or_assoc]

/-- Claim C8 (amended) — `extract_all_keyterms` wraps its five scoring
calls in no error handling, so on the empty string an error raised by the
TF-IDF step (sklearn's `TfidfVectorizer` raises `ValueError` on an empty
vocabulary) propagates out: `score("")` raises instead of returning a
sequence.  Only when every algorithm returns without raising — each
necessarily with an empty mapping — does `score("")` return the empty
sequence. -/
theorem score_empty_propagates_tfidf_error (top_n : Nat)
    (orderOf : List (String × ℚ) → List (String × ℚ) → List (String × ℚ) →
      List (String × ℚ) → List (String × ℚ) → List String)
    (hord : ∀ a b c d e, IsUnionOrder (orderOf a b c d e) a b c d e)
    (preprocess : String → String)
    (trF sgF scF yaF tfF : String → Except String (List (String × ℚ))) :
    (∀ a b c d err, trF (preprocess "") = .ok a → sgF (preprocess "") = .ok b →
      scF (preprocess "") = .ok c → yaF (preprocess "") = .ok d →
      tfF (preprocess "") = .error err →
      scoreText top_n orderOf preprocess trF sgF scF yaF tfF "" = .error err) ∧
    (trF (preprocess "") = .ok [] → sgF (preprocess "") = .ok [] →
      scF (preprocess "") = .ok [] → yaF (preprocess "") = .ok [] →
      tfF (preprocess "") = .ok [] →
      scoreText top_n orderOf preprocess trF sgF scF yaF tfF "" = .ok []) := by
  constructor
  · intro a b c d err h1 h2 h3 h4 h5
    simp only [scoreText, extract_all_keyterms_run, h1, h2, h3, h4, h5]
  · intro h1 h2 h3 h4 h5
    have hnil : orderOf [] [] [] [] [] = [] := by
      obtain ⟨_, hmem⟩ := hord [] [] [] [] []
      refine List.eq_nil_iff_forall_not_mem.mpr ?_
      intro t ht
      simpa using (hmem t).mp ht
    simp only [scoreText, extract_all_keyterms_run, h1, h2, h3, h4, h5, hnil,
      extract_all_keyterms, List.map_nil, List.insertionSort, List.take_nil]

/-- Witness for C8 with the canonical iteration order and five
non-raising empty algorithms. -/
theorem score_empty_propagates_tfidf_error_witness :
    scoreText 20 (fun a b c d e => ((a ++ b ++ c ++ d ++ e).map Prod.fst).dedup)
        (preprocess_text (fun _ => false) (fun _ => true) (fun c => c))
        (fun _ => .ok []) (fun _ => .ok []) (fun _ => .ok []) (fun _ => .ok [])
        (fun _ => .ok []) "" = .ok [] :=
  (score_empty_propagates_tfidf_error 20
    (fun a b c d e => ((a ++ b ++ c ++ d ++ e).map Prod.fst).dedup)
    dedup_union_isUnionOrder
    (preprocess_text (fun _ => false) (fun _ => true) (fun c => c))
    (fun _ => .ok []) (fun _ => .ok []) (fun _ => .ok []) (fun _ => .ok [])
    (fun _ => .ok [])).2 rfl rfl rfl rfl rfl

/-- Counterexample to C8 -- — `score("")` raises instead of returning an
empty sequence: the TF-IDF vectorizer errors on the empty (preprocessed)
document — sklearn's documented `ValueError` for an empty vocabulary,
modelled by the `tfF` instantiation — and `extract_all_keyterms` has no
handler, so the error escapes. -/
theorem score_empty_raises :
    scoreText 20 (fun _ _ _ _ _ => [])
        (preprocess_text (fun _ => false) (fun _ => true) (fun c => c))
        (fun _ => .ok []) (fun _ => .ok []) (fun _ => .ok []) (fun _ => .ok [])
        (fun t => if t = "" then
            .error "empty vocabulary; perhaps the documents only contain stop words"
          else .ok []) "" =
      .error "empty vocabulary; perhaps the documents only contain stop words" ∧
    ∀ l, scoreText 20 (fun _ _ _ _ _ => [])
        (preprocess_text (fun _ => false) (fun _ => true) (fun c => c))
        (fun _ => .ok []) (fun _ => .ok []) (fun _ => .ok []) (fun _ => .ok [])
        (fun t => if t = "" then
            .error "empty vocabulary; perhaps the documents only contain stop words"
          else .ok []) "" ≠ .ok l := by
  have herr : scoreText 20 (fun _ _ _ _ _ => [])
      (preprocess_text (fun _ => false) (fun _ => true) (fun c => c))
      (fun _ => .ok []) (fun _ => .ok []) (fun _ => .ok []) (fun _ => .ok [])
      (fun t => if t = "" then
          .error "empty vocabulary; perhaps the documents only contain stop words"
        else .ok []) "" =
      .error "empty vocabulary; perhaps the documents only contain stop words" := rfl
  exact ⟨herr, fun l h => Except.noConfusion (herr.symm.trans h)⟩

end ResumeMatcher
